import Mathlib

/- Formal model of `src/main/main.c`: an HC-SR04 ultrasonic distance meter
running three FreeRTOS tasks (trigger cadence, echo processing, OLED
rendering) plus a GPIO edge-interrupt callback.  C `double` values are
modelled as exact rationals, and 64-bit unsigned arithmetic as naturals
reduced modulo 2 ^ 64. -/

/-- Pico SDK GPIO interrupt event bit for a falling edge. -/
def GPIO_IRQ_EDGE_FALL : ℕ := 4

/-- Pico SDK GPIO interrupt event bit for a rising edge. -/
def GPIO_IRQ_EDGE_RISE : ℕ := 8

/-- Event structure `echo_event_t` (main.c lines 25-28).  The C field
`is_rising` is a `bool` that the interrupt callback may leave
uninitialized; it is modelled as `Option Bool`, with `none` standing for
the uninitialized field. -/
structure echo_event_t where
  is_rising : Option Bool
  timestamp : ℕ
deriving DecidableEq

/-- Bounded FIFO send (`xQueueSendFromISR`, and `xQueueSend` with a zero
timeout): appends when the queue holds fewer than `cap` items, otherwise
drops the item. -/
def queueSend {α : Type} (cap : ℕ) (q : List α) (x : α) : List α :=
  if q.length < cap then q ++ [x] else q

/-- Capacity of both queues created in `main` (main.c lines 154-155). -/
def QUEUE_CAP : ℕ := 10

/-- Polarity classification performed by `echo_pin_callback` (main.c lines
35-39): the rising bit is tested first, the falling bit only in the
`else if` branch, and when neither edge bit is set the `is_rising` field
is left uninitialized (`none`). -/
def classify_events (events : ℕ) : Option Bool :=
  if events &&& GPIO_IRQ_EDGE_RISE ≠ 0 then some true
  else if events &&& GPIO_IRQ_EDGE_FALL ≠ 0 then some false
  else none

/-- Interrupt callback `echo_pin_callback` (main.c lines 31-43): stamps the
current time, classifies the edge and unconditionally attempts a
non-blocking push of the event onto the time queue. -/
def echo_pin_callback (events now : ℕ) (q : List echo_event_t) :
    List echo_event_t :=
  queueSend QUEUE_CAP q { is_rising := classify_events events, timestamp := now }

/-- State of `echo_task` between loop iterations (main.c lines 74-75): the
stored rising-edge timestamp `t_rising` and the `have_rising` flag. -/
structure EchoState where
  t_rising : ℕ
  have_rising : Bool
deriving DecidableEq

/-- Speed-of-sound constant of main.c line 93: the C literal `0.0343`
(cm per µs), taken as the exact rational. -/
def SPEED_CM_PER_US : ℚ := 343 / 10000

/-- Composite of `absolute_time_diff_us` (main.c line 91), which returns
the `int64_t` difference to − from, with the assignment of that result to
the `uint64_t` variable `diff`: the net effect is the difference reduced
modulo 2 ^ 64 to a non-negative value (a negative difference wraps to a
value close to 2 ^ 64). -/
def diff_u64 (t_rising t_falling : ℕ) : ℕ :=
  ((((t_falling : ℤ) - (t_rising : ℤ)) % (2 ^ 64 : ℤ))).toNat

/-- One iteration of the `echo_task` loop body (main.c lines 78-99) on a
received event with a definite polarity: returns the updated state and
the distance sample (in cm) sent to `xQueueDistance`, if any. -/
def echoStep (s : EchoState) (is_rising : Bool) (timestamp : ℕ) :
    EchoState × Option ℚ :=
  if is_rising then
    ({ t_rising := timestamp, have_rising := true }, none)
  else if s.have_rising then
    ({ s with have_rising := false },
      some ((diff_u64 s.t_rising timestamp * SPEED_CM_PER_US) / 2))
  else (s, none)

/-- Runs `echo_task` over a finite sequence of (is_rising, timestamp)
events, collecting in order every distance sample it publishes. -/
def echoRun (s : EchoState) : List (Bool × ℕ) → EchoState × List ℚ
  | [] => (s, [])
  | (b, t) :: rest =>
    ((echoRun (echoStep s b t).1 rest).1,
      (echoStep s b t).2.toList ++ (echoRun (echoStep s b t).1 rest).2)

/-- C cast of a `double` to `int` (truncation toward zero), on the
exact-rational model. -/
def c_int_cast (q : ℚ) : ℤ := if 0 ≤ q then ⌊q⌋ else ⌈q⌉

/-- Bar length computed in the valid-reading branch (main.c lines
132-134): `(int)distance`, replaced by 128 only when it exceeds 400. -/
def bar_length (distance : ℚ) : ℤ :=
  let b := c_int_cast distance
  if b > 400 then 128 else b

/-- The three render outcomes of one `oled_task` cycle after a taken
handshake (main.c lines 118-145). -/
inductive RenderState where
  | sensorTimeout
  | outOfRange
  | validReading (bar : ℤ)
deriving DecidableEq

/-- Message drawn for each render outcome (main.c lines 121, 128 and 143);
for the valid reading it is the `snprintf` format string, the formatted
numeric value being abstracted away. -/
def displayMessage : RenderState → String
  | .sensorTimeout => "Sensor Falhou!"
  | .outOfRange => "Falha ao medir Distancia"
  | .validReading _ => "Dist: %.2f cm"

/-- Decision taken by `oled_task` once the handshake semaphore has been
taken (main.c lines 118-145): `none` models `xQueueReceive` timing out
after 50 ms, `some d` models a received distance of `d` cm. -/
def renderDecision : Option ℚ → RenderState
  | none => .sensorTimeout
  | some distance =>
    if distance > 400 then .outOfRange
    else .validReading (bar_length distance)

/-- One `oled_task` cycle after a successful handshake take, with the FIFO
contents of `xQueueDistance` explicit: `queue` is what is already
buffered when the 50 ms wait starts (possibly samples left over from
earlier trigger cycles) and `arrivals` are the samples published during
the wait window.  `xQueueReceive` returns the buffer head immediately
when one is present, otherwise the first arrival, and times out only when
both are empty. -/
def oledCycle (queue arrivals : List ℚ) : RenderState × List ℚ :=
  match queue with
  | d :: rest => (renderDecision (some d), rest ++ arrivals)
  | [] =>
    match arrivals with
    | d :: rest => (renderDecision (some d), rest)
    | [] => (renderDecision none, [])

/-- FreeRTOS binary semaphore give (`xSemaphoreGive` on the handshake
semaphore of main.c line 156): the token becomes (or stays) available; a
give on an already-full binary semaphore fails and changes nothing.
Returns the new state and whether the give succeeded. -/
def xSemaphoreGive (s : Bool) : Bool × Bool := (true, !s)

/-- FreeRTOS binary semaphore take (with any timeout): consumes the token
when available.  Returns the new state and whether the take succeeded. -/
def xSemaphoreTake (s : Bool) : Bool × Bool := (false, s)

/-- Semaphore state after `n` consecutive `xSemaphoreGive` calls with no
intervening take. -/
def giveN : ℕ → Bool → Bool
  | 0, s => s
  | n + 1, s => (xSemaphoreGive (giveN n s)).1

/-- Observable actions of the `trigger_task` loop body (main.c lines
51-62). -/
inductive TrigAction where
  | setPin (level : Bool)
  | delayTicks (ticks : ℕ)
  | giveSem
deriving DecidableEq

/-- FreeRTOS `pdMS_TO_TICKS` at the RP2040 port's default 1000 Hz tick
rate: one tick per millisecond. -/
def pdMS_TO_TICKS (ms : ℕ) : ℕ := ms

/-- One iteration of the `trigger_task` loop body (main.c lines 51-62), in
program order: drive TRIG high, delay, drive it low, give the handshake,
delay again. -/
def triggerCycle : List TrigAction :=
  [.setPin true, .delayTicks (pdMS_TO_TICKS 1000), .setPin false, .giveSem,
    .delayTicks (pdMS_TO_TICKS 1000)]

/-- Total delay ticks elapsed while the trigger pin is high, scanning an
action trace from the given initial pin level. -/
def highTicks : Bool → List TrigAction → ℕ
  | _, [] => 0
  | _, .setPin l :: rest => highTicks l rest
  | level, .delayTicks n :: rest => (if level then n else 0) + highTicks level rest
  | level, .giveSem :: rest => highTicks level rest

/-- Total delay ticks of an action trace: the period of one loop
iteration, ignoring the execution time of the non-delay actions. -/
def totalTicks : List TrigAction → ℕ
  | [] => 0
  | .delayTicks n :: rest => n + totalTicks rest
  | _ :: rest => totalTicks rest

/-- Number of handshake gives in an action trace. -/
def giveCount : List TrigAction → ℕ
  | [] => 0
  | .giveSem :: rest => 1 + giveCount rest
  | _ :: rest => giveCount rest

/-- Specification-side predicate, written from the spec's words: the event
sequence contains a Rising event followed by a Falling event with only
Rising overwrites in between — equivalently, a Rising event immediately
followed by a Falling event. -/
def hasRisingFallingPair : List (Bool × ℕ) → Bool
  | [] => false
  | [_] => false
  | a :: b :: rest => (a.1 && !b.1) || hasRisingFallingPair (b :: rest)

/-- C6: the echo processor is a two-state machine over Idle/Armed: Idle +
Rising stores the timestamp and arms; Armed + Rising overwrites the
stored timestamp and stays armed; Idle + Falling publishes nothing and
stays Idle. -/
theorem C6_echo_state_machine (t ts : ℕ) :
    echoStep ⟨t, false⟩ true ts = (⟨ts, true⟩, none) ∧
    echoStep ⟨t, true⟩ true ts = (⟨ts, true⟩, none) ∧
    echoStep ⟨t, false⟩ false ts = (⟨t, false⟩, none) :=
  ⟨rfl, rfl, rfl⟩

/-- C4: for a matched edge pair with falling_ts ≥ rising_ts (and no 64-bit
wrap of the difference), the published distance is exactly
(falling − rising) · 0.0343 / 2 cm, and the processor disarms while
keeping the stored rising timestamp. -/
theorem C4_distance_formula (r f : ℕ) (hrf : r ≤ f) (hw : f - r < 2 ^ 64) :
    echoStep ⟨r, true⟩ false f =
      (⟨r, false⟩, some ((((f - r : ℕ) : ℚ) * (343 / 10000)) / 2)) := by
  have h1 : ((f : ℤ) - (r : ℤ)) = ((f - r : ℕ) : ℤ) := by omega
  have h2 : diff_u64 r f = f - r := by
    unfold diff_u64
    rw [h1, Int.emod_eq_of_lt (Int.natCast_nonneg _) (by exact_mod_cast hw)]
    exact Int.toNat_natCast _
  simp [echoStep, h2, SPEED_CM_PER_US]

/-- Witness for C4 at rising 1000 µs, falling 1058 µs: elapsed 58 µs and
distance 9947/10000 cm (≈ 0.994 cm). -/
theorem C4_distance_formula_witness :
    echoStep ⟨1000, true⟩ false 1058 = (⟨1000, false⟩, some (9947 / 10000)) := by
  rw [C4_distance_formula 1000 1058 (by norm_num) (by norm_num)]
  norm_num

/-- C3 counterexample: rising at 1000 µs then falling at 500 µs gives a
negative elapsed time, yet the code wraps it modulo 2 ^ 64 into a huge
unsigned value and still publishes a sample instead of discarding the
falling event. -/
theorem C3_counterexample :
    (echoRun ⟨0, false⟩ [(true, 1000), (false, 500)]).2 ≠ [] := by
  simp [echoRun, echoStep]

/-- Helper: a run started in the Armed state publishes a sample exactly
when the event sequence contains some Falling event. -/
theorem echoRun_armed_emits (t : ℕ) (evts : List (Bool × ℕ)) :
    (echoRun ⟨t, true⟩ evts).2 ≠ [] ↔ evts.any (fun e => !e.1) := by
  induction evts generalizing t with
  | nil => simp [echoRun]
  | cons e rest ih =>
    obtain ⟨b, ts⟩ := e
    cases b with
    | true => simpa [echoRun, echoStep] using ih ts
    | false => simp [echoRun, echoStep]

/-- Helper: an event tail contains a Falling event exactly when prefixing
it with a Rising event creates an adjacent Rising-Falling pair. -/
theorem anyFalling_iff_pair (ts : ℕ) (rest : List (Bool × ℕ)) :
    rest.any (fun e => !e.1) = hasRisingFallingPair ((true, ts) :: rest) := by
  induction rest generalizing ts with
  | nil => simp [hasRisingFallingPair]
  | cons b r ih =>
    obtain ⟨pb, tb⟩ := b
    cases pb with
    | true => simpa [hasRisingFallingPair] using ih tb
    | false => simp [hasRisingFallingPair]

/-- Helper: a run started in the Idle state publishes a sample exactly
when the event sequence contains a Rising event immediately followed by a
Falling event. -/
theorem echoRun_idle_emits (t : ℕ) (evts : List (Bool × ℕ)) :
    (echoRun ⟨t, false⟩ evts).2 ≠ [] ↔ hasRisingFallingPair evts := by
  induction evts generalizing t with
  | nil => simp [echoRun, hasRisingFallingPair]
  | cons e rest ih =>
    obtain ⟨b, ts⟩ := e
    cases b with
    | true =>
      have h1 := echoRun_armed_emits ts rest
      have h2 := anyFalling_iff_pair ts rest
      rw [← h2] at *
      simpa [echoRun, echoStep] using h1
    | false =>
      cases rest with
      | nil => simp [echoRun, echoStep, hasRisingFallingPair]
      | cons e2 r2 =>
        simpa [echoRun, echoStep, hasRisingFallingPair] using ih t

/-- C3 (amended): starting from the initial Idle state, a DistanceSample
is emitted iff a Rising event is followed (ignoring additional Rising
overwrites) by a Falling event — with no condition on the sign of the
elapsed time: a negative difference is wrapped modulo 2 ^ 64 by the
unsigned conversion and a sample is still published. -/
theorem C3_emission_iff_pair (evts : List (Bool × ℕ)) :
    (echoRun ⟨0, false⟩ evts).2 ≠ [] ↔ hasRisingFallingPair evts :=
  echoRun_idle_emits 0 evts

/-- C1: evaluation of the trigger task loop body: the trigger pin is held
high for 1000 ticks (1000 ms at the 1 kHz tick rate) — not a 10 µs pulse
nor its one-tick coarsening — and the full cycle lasts 2000 ticks
(a 0.5 Hz cadence, not the 1 s period), while the handshake is indeed
given exactly once per cycle. -/
theorem C1_trigger_timing :
    highTicks false triggerCycle = 1000 ∧
    totalTicks triggerCycle = 2000 ∧
    giveCount triggerCycle = 1 :=
  ⟨rfl, rfl, rfl⟩

/-- C2: a sample of 399.9 cm reaches the valid-reading branch and draws a
bar of 399 pixels, which exceeds the 128-pixel display width: the clamp
compares the bar against 400, not against the display width. -/
theorem C2_bar_overflows_display :
    renderDecision (some (3999 / 10)) = .validReading 399 ∧ (128 : ℤ) < 399 := by
  constructor
  · norm_num [renderDecision, bar_length, c_int_cast]
  · norm_num

/-- C9: whenever the valid-reading branch is reached (distance ≤ 400 cm),
the drawn bar equals the C integer truncation of the distance, and the
guard `bar_length > 400` of the internal clamp branch is false, so the
assignment of 128 is unreachable there. -/
theorem C9_bar_eq_trunc (d : ℚ) (hd : d ≤ 400) :
    bar_length d = c_int_cast d ∧ ¬ 400 < c_int_cast d := by
  have hc : ⌈d⌉ ≤ (400 : ℤ) := Int.ceil_le.mpr (by exact_mod_cast hd)
  have h : c_int_cast d ≤ 400 := by
    unfold c_int_cast
    split
    · exact (Int.floor_le_ceil d).trans hc
    · exact hc
  refine ⟨?_, not_lt.mpr h⟩
  unfold bar_length
  simp [not_lt.mpr h]

/-- Witness for C9 at 399.9 cm: below the cutoff, and the bar drawn is the
399-pixel truncation. -/
theorem C9_bar_eq_trunc_witness :
    (3999 / 10 : ℚ) ≤ 400 ∧ bar_length (3999 / 10) = 399 := by
  refine ⟨by norm_num, ?_⟩
  rw [(C9_bar_eq_trunc (3999 / 10) (by norm_num)).1]
  norm_num [c_int_cast]

/-- C5: the render coordinator decides among exactly three outcomes: no
sample within the 50 ms wait renders the sensor-timeout state, whose
message is "Sensor Falhou!"; a sample above 400 cm (such as 450) renders
the out-of-range state, distinct from the timeout state; any other sample
renders a valid reading with its bar. -/
theorem C5_three_outcomes :
    renderDecision none = .sensorTimeout ∧
    displayMessage .sensorTimeout = "Sensor Falhou!" ∧
    renderDecision (some 450) = .outOfRange ∧
    (∀ d : ℚ, 400 < d → renderDecision (some d) = .outOfRange) ∧
    (∀ d : ℚ, d ≤ 400 → renderDecision (some d) = .validReading (bar_length d)) ∧
    RenderState.outOfRange ≠ RenderState.sensorTimeout := by
  refine ⟨rfl, rfl, by norm_num [renderDecision], ?_, ?_, by simp⟩
  · intro d hd
    simp [renderDecision, hd]
  · intro d hd
    simp [renderDecision, not_lt.mpr hd]

/-- Witness for C5: a 450 cm sample renders out-of-range and a 100 cm
sample renders a valid reading with a 100-pixel bar. -/
theorem C5_three_outcomes_witness :
    renderDecision (some 450) = .outOfRange ∧
      renderDecision (some 100) = .validReading 100 := by
  refine ⟨C5_three_outcomes.2.2.2.1 450 (by norm_num), ?_⟩
  rw [C5_three_outcomes.2.2.2.2.1 100 (by norm_num)]
  norm_num [bar_length, c_int_cast]

/-- Helper: a received sample never renders the sensor-timeout state. -/
theorem renderDecision_some_ne_timeout (d : ℚ) :
    renderDecision (some d) ≠ .sensorTimeout := by
  simp only [renderDecision]
  split <;> simp

/-- C7 counterexample: a stale 450 cm sample left in the distance queue
from an earlier cycle is consumed right after the next handshake and
rendered, even though no sample arrives within that cycle's 50 ms wait
window — the sensor-timeout state is not rendered. -/
theorem C7_counterexample :
    (oledCycle [450] []).1 = .outOfRange ∧
      (oledCycle [450] []).1 ≠ .sensorTimeout := by
  constructor
  · norm_num [oledCycle, renderDecision]
  · have h : (oledCycle [450] []).1 = RenderState.outOfRange := by
      norm_num [oledCycle, renderDecision]
    rw [h]
    simp

/-- C7 (amended): after a handshake, the sensor-timeout state is rendered
iff the distance queue was empty at the handshake AND no sample arrives
within the 50 ms window; a sample left over from a previous cycle is
otherwise consumed and rendered as if current, since samples carry no
cycle identity. -/
theorem C7_timeout_iff_empty (queue arrivals : List ℚ) :
    (oledCycle queue arrivals).1 = .sensorTimeout ↔
      queue = [] ∧ arrivals = [] := by
  cases queue with
  | cons d rest => simp [oledCycle, renderDecision_some_ne_timeout d]
  | nil =>
    cases arrivals with
    | cons d rest => simp [oledCycle, renderDecision_some_ne_timeout d]
    | nil => simp [oledCycle, renderDecision]

/-- C8: the handshake is a coalescing single-slot signal: giving the
binary semaphore any positive number of times with no intervening take
leaves exactly the state of a single give — one available token, so one
subsequent take succeeds and the next take fails. -/
theorem C8_handshake_coalesces (n : ℕ) (s : Bool) (hn : 1 ≤ n) :
    giveN n s = (xSemaphoreGive s).1 ∧
    (xSemaphoreTake (giveN n s)).2 = true ∧
    (xSemaphoreTake (xSemaphoreTake (giveN n s)).1).2 = false := by
  obtain ⟨m, rfl⟩ := Nat.exists_eq_add_of_le hn
  rw [Nat.add_comm]
  exact ⟨rfl, rfl, rfl⟩

/-- Witness for C8: two consecutive gives on an empty semaphore coincide
with a single give. -/
theorem C8_handshake_coalesces_witness :
    1 ≤ 2 ∧ giveN 2 false = (xSemaphoreGive false).1 :=
  ⟨by decide, (C8_handshake_coalesces 2 false (by decide)).1⟩

/-- C10: every invocation of the edge callback attempts a push of a
timestamped event onto the event queue, appending it whenever the queue
has room; the rising-edge bit takes precedence over the falling-edge bit,
and when neither edge bit is set the polarity field of the pushed event
is left uninitialized (modelled as `none`). -/
theorem C10_callback_push (events now : ℕ) (q : List echo_event_t)
    (hq : q.length < QUEUE_CAP) :
    echo_pin_callback events now q =
      q ++ [{ is_rising := classify_events events, timestamp := now }] ∧
    (events &&& GPIO_IRQ_EDGE_RISE ≠ 0 → classify_events events = some true) ∧
    (events &&& GPIO_IRQ_EDGE_RISE = 0 → events &&& GPIO_IRQ_EDGE_FALL = 0 →
      classify_events events = none) := by
  refine ⟨?_, ?_, ?_⟩
  · unfold echo_pin_callback queueSend
    rw [if_pos hq]
  · intro h
    simp [classify_events, h]
  · intro h1 h2
    simp [classify_events, h1, h2]

/-- Witness for C10: a mask with both edge bits set (12) pushes a
rising-polarity event onto an empty queue, and a mask with neither edge
bit yields an uninitialized polarity. -/
theorem C10_callback_push_witness :
    echo_pin_callback 12 77 [] = [{ is_rising := some true, timestamp := 77 }] ∧
      classify_events 0 = none := by
  constructor
  · rw [(C10_callback_push 12 77 [] (by simp [QUEUE_CAP])).1]
    have h := (C10_callback_push 12 77 [] (by simp [QUEUE_CAP])).2.1 (by decide)
    rw [h]
    simp
  · exact (C10_callback_push 0 0 [] (by simp [QUEUE_CAP])).2.2 (by decide) (by decide)
